import Mathlib

/-!
# Verification of the report-lifecycle subsystem of `useai`

A shallow embedding of the report-lifecycle code of the `useai` repository
(`src/services/report_service.py`, `src/services/prompt_service.py`,
`src/utils/report_utils.py`, `src/db/models.py`, `src/exceptions.py`) and
proofs about it.

Modelling conventions:
* Text is represented as `List Char` (`Str`).
* Filesystem paths are normalised the way `pathlib.Path.resolve()` normalises
  them on POSIX without symlinks (the spec explicitly assumes a symlink-free
  resolution): make absolute against the current working directory, drop empty
  and `.` components, and interpret `..` lexically, clamped at the root.
* The filesystem is a map from resolved path components to file contents; the
  database is an association list from integer id to `Report`; commits are the
  points where the committed association list is replaced.
* Tab-separated files are written and parsed exactly as Python's `csv` module
  does with `delimiter='\t'` and files opened with `newline=''`: the default
  dialect quotes a field iff it contains a tab, a double quote, CR or LF, a
  lone empty field is written as `""`, rows end in CRLF, and the reader is the
  `_csv.c` state machine (of Python 3.11, which the repository targets).
* Exceptions are modelled with `Except`/`Option` results; the asynchronous
  completion call is a parameter (`Except Exn` of a header/rows table), and an
  injected `writeFails` flag models an OS error while writing the result file.
-/

set_option maxHeartbeats 1000000

abbrev Str := List Char

/-! ## Generic text helpers -/

/-- `startsWithL s pat`: does `s` begin with `pat`?  (Python `str.startswith`,
also used for `pathlib` string comparison in `_validate_report_path`.) -/
def startsWithL : Str → Str → Bool
  | _, [] => true
  | [], _ :: _ => false
  | c :: cs, p :: ps => c = p && startsWithL cs ps

/-- `containsSub s pat`: does `pat` occur as a contiguous run inside `s`?
(Python `pat in s`.) -/
def containsSub : Str → Str → Bool
  | [], pat => startsWithL [] pat
  | c :: cs, pat => startsWithL (c :: cs) pat || containsSub cs pat

/-- `joinWith sep l`: Python `sep.join(l)` for a one-character separator. -/
def joinWith (sep : Char) : List Str → Str
  | [] => []
  | [s] => s
  | s :: t :: rest => s ++ sep :: joinWith sep (t :: rest)

/-! ## Path model (`pathlib.Path` on POSIX, no symlinks) -/

/-- Split a raw path string at `/` characters (keeping empty pieces). -/
def splitSlash : Str → List Str
  | [] => [[]]
  | c :: cs =>
    if c = '/' then [] :: splitSlash cs
    else
      match splitSlash cs with
      | [] => [[c]]
      | h :: t => (c :: h) :: t

/-- The components `pathlib` keeps when parsing a path: empty pieces and `.`
pieces are dropped (`PurePosixPath('a/./b//c')` has parts `a b c`). -/
def parseComps (s : Str) : List Str :=
  (splitSlash s).filter (fun comp => !(comp = [] || comp = ['.']))

/-- Does the raw path start with `/`? -/
def isAbs : Str → Bool
  | [] => false
  | c :: _ => c = '/'

/-- Apply components to an already-resolved absolute component list:
`..` pops the last component (clamped at the root, as `Path('/..').resolve()`
is `/`), any other component is appended. -/
def resolveComps (start : List Str) (comps : List Str) : List Str :=
  comps.foldl (fun acc comp => if comp = ['.', '.'] then acc.dropLast else acc ++ [comp]) start

/-- `Path(s).resolve()` with current directory `cwd` (given resolved):
absolute paths restart at the root, relative ones start at `cwd`. -/
def resolvePath (cwd : List Str) (s : Str) : List Str :=
  resolveComps (if isAbs s then [] else cwd) (parseComps s)

/-- `str()` of a resolved absolute path: `/`-joined components behind a
leading `/` (so `[]` renders as `/`, `[a,b]` as `/a/b`). -/
def renderAbs (comps : List Str) : Str :=
  '/' :: joinWith '/' comps

/-! ## Data model (`src/db/models.py`, `src/exceptions.py`) -/

/-- `ReportStatus` (`src/db/models.py`): processing / completed / failed. -/
inductive ReportStatus where
  | processing
  | completed
  | failed
deriving DecidableEq, Repr

/-- The `Report` row (`src/db/models.py`); `created_at` is an abstract clock
value, the identifier lives as the key of the database association list. -/
structure Report where
  created_at : Nat
  status : ReportStatus
  directory_path : Str
  prompt_name : Option Str
deriving DecidableEq, Repr

/-- The application exceptions raised by the modelled code
(`src/exceptions.py`), plus `valueError` for `LLMService` failures and
`osError` for an injected file-write failure. -/
inductive Exn where
  | resourceNotFound (resource_name : Str) (resource_id : Nat)
  | invalidFilePath (path : Str)
  | valueError (msg : Str)
  | osError
deriving DecidableEq, Repr

/-- A header row plus data rows, as returned by `LLMService.generate_tsv`. -/
abbrev Table := List Str × List (List Str)

/-- The world state: committed database rows, the filesystem (keyed by
resolved path components), and the log of prompts sent to the LLM client. -/
structure World where
  reports : List (Nat × Report)
  fs : List Str → Option Str
  llmCalls : List Str

/-- First-match association lookup, as `session.get` by primary key. -/
def lookupRep (rid : Nat) : List (Nat × Report) → Option Report
  | [] => none
  | kv :: rest => if kv.1 = rid then some kv.2 else lookupRep rid rest

/-- Largest key of the association list (0 when empty). -/
def maxKey (l : List (Nat × Report)) : Nat :=
  l.foldr (fun kv m => max kv.1 m) 0

/-- A fresh primary key, as assigned by the store on insert. -/
def freshId (l : List (Nat × Report)) : Nat :=
  maxKey l + 1

/-- Persist a status change for row `rid` (`_update_status` + commit). -/
def update_status (l : List (Nat × Report)) (rid : Nat) (st : ReportStatus) :
    List (Nat × Report) :=
  l.map (fun kv => if kv.1 = rid then (kv.1, { kv.2 with status := st }) else kv)

/-- Write `v` at resolved path `k` (creating or overwriting the file). -/
def writeFs (fs : List Str → Option Str) (k : List Str) (v : Str) :
    List Str → Option Str :=
  fun k2 => if k2 = k then some v else fs k2

/-- The status of report `rid` visible in the committed state of `w`. -/
def statusOf (w : World) (rid : Nat) : Option ReportStatus :=
  (lookupRep rid w.reports).map (fun r => r.status)

/-! ## Artifact file names (`ReportService._get_prompt_filename` /
`_get_result_filename`, src/services/report_service.py:192-227) -/

/-- `_get_prompt_filename`: `prompt_<suffix>.md` for names starting with
`prompt_`, `<name>.md` otherwise, `prompt.txt` for `None`/empty. -/
def get_prompt_filename : Option Str → Str
  | some name =>
    if name = [] then "prompt.txt".toList
    else if startsWithL name "prompt_".toList then
      "prompt_".toList ++ name.drop 7 ++ ".md".toList
    else name ++ ".md".toList
  | none => "prompt.txt".toList

/-- `_get_result_filename`: `result_<suffix>.tsv` for names starting with
`prompt_`, `result_<name>.tsv` otherwise, `result.tsv` for `None`/empty. -/
def get_result_filename : Option Str → Str
  | some name =>
    if name = [] then "result.tsv".toList
    else if startsWithL name "prompt_".toList then
      "result_".toList ++ name.drop 7 ++ ".tsv".toList
    else "result_".toList ++ name ++ ".tsv".toList
  | none => "result.tsv".toList

example : get_result_filename (some "prompt_1_1".toList) = "result_1_1.tsv".toList := by decide
example : get_result_filename (some "alpha".toList) = "result_alpha.tsv".toList := by decide
example : get_result_filename none = "result.tsv".toList := by decide
example : resolvePath ["tmp".toList] "a/./b//c".toList
    = ["tmp".toList, "a".toList, "b".toList, "c".toList] := by decide
example : resolvePath [] "/a/b/../c".toList = ["a".toList, "c".toList] := by decide
example : renderAbs ["a".toList, "c".toList] = "/a/c".toList := by decide
example : resolvePath [] "/..".toList = [] := by decide

/-! ## Tab-separated serialisation (Python `csv` with `delimiter='\t'`,
default dialect, files opened with `newline=''`) -/

/-- Characters that force quoting under `QUOTE_MINIMAL`: the delimiter, the
quote character, and the line-terminator characters. -/
def isSpecial (c : Char) : Bool :=
  c = '\t' || c = '"' || c = '\r' || c = '\n'

/-- Does a field need quoting when written? -/
def needQuote (f : Str) : Bool :=
  f.any isSpecial

/-- Double every quote character (`doublequote=True`). -/
def escQuote : Str → Str
  | [] => []
  | c :: cs => if c = '"' then '"' :: '"' :: escQuote cs else c :: escQuote cs

/-- One written field: quoted iff it contains a special character. -/
def writeField (f : Str) : Str :=
  if needQuote f then '"' :: (escQuote f ++ ['"']) else f

/-- Tab-joined fields of one record (no terminator yet). -/
def writeRowBody : List Str → Str
  | [] => []
  | [f] => writeField f
  | f :: g :: rest => writeField f ++ '\t' :: writeRowBody (g :: rest)

/-- `csv.writer.writerow`: the joined fields followed by CRLF, except that a
record holding exactly one empty field is written as `""` (so that it is not
confused with a blank line; `_csv.c` `csv_writerow`). -/
def writeRow (r : List Str) : Str :=
  (if r = [[]] then ['"', '"'] else writeRowBody r) ++ ['\r', '\n']

/-- `writerow(headers)` followed by `writerows(rows)`
(`ReportService._save_report_files`, src/services/report_service.py:160-165). -/
def serializeTable (headers : List Str) (rows : List (List Str)) : Str :=
  writeRow headers ++ (rows.map writeRow).flatten

/-- Parser states of the `_csv.c` reader state machine (default dialect:
`quotechar='"'`, `doublequote=True`, `escapechar=None`, `strict=False`);
`START_RECORD`, `START_FIELD`, `IN_FIELD`, `IN_QUOTED_FIELD`,
`QUOTE_IN_QUOTED_FIELD`.  `EAT_CRNL` is represented by the one-character
lookahead after `'\r'` (with `newline=''` a line ends right after `'\n'`, or
after a `'\r'` not followed by `'\n'`, so `EAT_CRNL` consumes at most the
`'\n'` of a CRLF pair before the end-of-line mark resets the machine). -/
inductive PState where
  | sr
  | sf
  | inf
  | inq
  | qq
deriving DecidableEq, Repr

/-- The `_csv.c` reader loop over the character stream.  `fields` are the
saved fields of the current record, `f` the field being accumulated.  A
finished record is emitted into the result list; a blank line yields `[]`.
In `.sr` the machine falls through into the start-of-field handling on an
ordinary character, exactly as the C `switch` falls through from
`START_RECORD` to `START_FIELD`. -/
def csvRun : PState → List Str → Str → Str → List (List Str)
  | st, fields, f, [] =>
    match st with
    | .sr => []
    | _ => [fields ++ [f]]
  | st, fields, f, '\r' :: '\n' :: cs =>
    match st with
    | .sr => [] :: csvRun .sr [] [] cs
    | .inq => csvRun .inq fields (f ++ ['\r']) ('\n' :: cs)
    | _ => (fields ++ [f]) :: csvRun .sr [] [] cs
  | st, fields, f, '\r' :: cs =>
    match st with
    | .sr => [] :: csvRun .sr [] [] cs
    | .inq => csvRun .inq fields (f ++ ['\r']) cs
    | _ => (fields ++ [f]) :: csvRun .sr [] [] cs
  | st, fields, f, '\n' :: cs =>
    match st with
    | .sr => [] :: csvRun .sr [] [] cs
    | .inq => csvRun .inq fields (f ++ ['\n']) cs
    | _ => (fields ++ [f]) :: csvRun .sr [] [] cs
  | st, fields, f, '\t' :: cs =>
    match st with
    | .inq => csvRun .inq fields (f ++ ['\t']) cs
    | _ => csvRun .sf (fields ++ [f]) [] cs
  | st, fields, f, '"' :: cs =>
    match st with
    | .sr | .sf => csvRun .inq fields f cs
    | .inf => csvRun .inf fields (f ++ ['"']) cs
    | .inq => csvRun .qq fields f cs
    | .qq => csvRun .inq fields (f ++ ['"']) cs
  | st, fields, f, c :: cs =>
    match st with
    | .inq => csvRun .inq fields (f ++ [c]) cs
    | _ => csvRun .inf fields (f ++ [c]) cs

/-- `list(csv.reader(file))` over the whole file contents. -/
def parseCsv (s : Str) : List (List Str) :=
  csvRun .sr [] [] s

example : parseCsv "a\tb\r\n".toList = [["a".toList, "b".toList]] := by decide
example : parseCsv "\t\r\n".toList = [[[], []]] := by decide
example : parseCsv "a\t".toList = [["a".toList, []]] := by decide
example : parseCsv "\"a".toList = [["a".toList]] := by decide
example : parseCsv "\"a\"b\tc\r\n".toList = [["ab".toList, "c".toList]] := by decide
example : parseCsv "\"a\r\nb\"\r\n".toList = [["a\r\nb".toList]] := by decide
example : parseCsv "a\rb".toList = [["a".toList], ["b".toList]] := by decide
example : parseCsv "\r\r\n".toList = [[], []] := by decide
example : parseCsv "\"\"\r\n".toList = [[[]]] := by decide
example : parseCsv "x\r\n\r\n".toList = [["x".toList], []] := by decide
example : parseCsv "a\"b\tc\r\n".toList = [["a\"b".toList, "c".toList]] := by decide
example : parseCsv "\"a\"\"b\"\r\n".toList = [["a\"b".toList]] := by decide
example : parseCsv "\n\r\n".toList = [[], []] := by decide
example : parseCsv [] = [] := by decide
example : writeRow [[]] = "\"\"\r\n".toList := by decide
example : writeRow [] = "\r\n".toList := by decide
example : writeRow ["a".toList, []] = "a\t\r\n".toList := by decide
example : writeRow ["a\"b".toList] = "\"a\"\"b\"\r\n".toList := by decide
example : serializeTable ["h1".toList, "h2".toList] [["a".toList, "b".toList]]
    = "h1\th2\r\na\tb\r\n".toList := by decide
example : parseCsv (serializeTable ["h1".toList, "h2".toList] [["a".toList, "b".toList]])
    = [["h1".toList, "h2".toList], ["a".toList, "b".toList]] := by decide
example : parseCsv (serializeTable ["h".toList] [[[]], [], ["x\ry".toList, "\"".toList]])
    = [["h".toList], [[]], [], ["x\ry".toList, "\"".toList]] := by decide

/-! ## Report service (`src/services/report_service.py`) -/

/-- `ReportService._validate_report_path` (report_service.py:168-189): resolve
the base directory and the stored report directory, append the result file
name and resolve again, then require the *string rendering* of the result
path to start with the string rendering of the base path; on failure raise
`InvalidFilePathError(report_dir)`, on success return the resolved result
path. -/
def validate_report_path (cwd : List Str) (base_dir : Str) (report_dir : Str)
    (prompt_name : Option Str) : Except Exn (List Str) :=
  let base_path := resolvePath cwd base_dir
  let report_dir_path := resolvePath cwd report_dir
  let result_filename := get_result_filename prompt_name
  let result_path :=
    if isAbs result_filename then resolvePath cwd result_filename
    else resolveComps report_dir_path (parseComps result_filename)
  if startsWithL (renderAbs result_path) (renderAbs base_path) then .ok result_path
  else .error (.invalidFilePath report_dir)

/-- `ReportService._read_tsv_file` (report_service.py:229-246): a missing file
gives `([], [])`; otherwise parse as TSV, an empty row list gives `([], [])`,
else the first row is the headers and the rest the data rows. -/
def read_tsv_file (fs : List Str → Option Str) (result_path : List Str) :
    List Str × List (List Str) :=
  match fs result_path with
  | none => ([], [])
  | some content =>
    match parseCsv content with
    | [] => ([], [])
    | h :: t => (h, t)

/-- `ReportService.get_report_content` (report_service.py:248-266): look the
report up (else `ResourceNotFoundError`), validate its stored directory path,
then read the result file. -/
def get_report_content (cwd : List Str) (base_dir : Str) (w : World)
    (report_id : Nat) : Except Exn (List Str × List (List Str)) :=
  match lookupRep report_id w.reports with
  | none => .error (.resourceNotFound "Report".toList report_id)
  | some report =>
    match validate_report_path cwd base_dir report.directory_path report.prompt_name with
    | .error e => .error e
    | .ok result_path => .ok (read_tsv_file w.fs result_path)

/-- The resolved location at which the OS opens `Path(dir) / f` for a process
whose working directory is `cwd`: an absolute `f` replaces `dir` entirely
(`pathlib` join semantics), otherwise `f`'s components are applied after
`dir`'s resolution.  This is the same expression
`_validate_report_path` computes as `result_path`, which is what the spec
means by the file name being "consistently computed by both the writer and
the reader". -/
def joinResolve (cwd : List Str) (dir f : Str) : List Str :=
  if isAbs f then resolvePath cwd f
  else resolveComps (resolvePath cwd dir) (parseComps f)

/-- `ReportService._save_report_files` (report_service.py:139-166): write the
prompt file, call `LLMService.generate_tsv` (outcome injected as `llmOut`,
logged in `llmCalls`), then write the serialised table to the result file.
`writeFails` injects an OS failure at the result-file write.  File writes are
not transactional: the prompt file stays written even when the call fails. -/
def save_report_files (cwd : List Str) (llmOut : Except Exn Table)
    (writeFails : Bool) (w : World) (directory_path : Str) (prompt : Str)
    (prompt_name : Option Str) : World × Except Exn Unit :=
  let prompt_path := joinResolve cwd directory_path (get_prompt_filename prompt_name)
  let w1 : World := { w with fs := writeFs w.fs prompt_path prompt }
  let w2 : World := { w1 with llmCalls := w1.llmCalls ++ [prompt] }
  match llmOut with
  | .error e => (w2, .error e)
  | .ok (headers, rows) =>
    if writeFails then (w2, .error .osError)
    else
      let result_path := joinResolve cwd directory_path (get_result_filename prompt_name)
      ({ w2 with fs := writeFs w2.fs result_path (serializeTable headers rows) }, .ok ())

/-- `ReportService._process_report_with_session` (report_service.py:86-105):
try to save the files and commit status COMPLETED; on any exception roll the
session back (the uncommitted COMPLETED write is discarded), commit status
FAILED, and re-raise (the raised exception is the `Option Exn`). -/
def process_report_with_session (cwd : List Str) (llmOut : Except Exn Table)
    (writeFails : Bool) (w : World) (rid : Nat) (report : Report)
    (prompt : Str) : World × Option Exn :=
  let res := save_report_files cwd llmOut writeFails w report.directory_path prompt
    report.prompt_name
  match res.2 with
  | .ok _ => ({ res.1 with reports := update_status res.1.reports rid .completed }, none)
  | .error e => ({ res.1 with reports := update_status res.1.reports rid .failed }, some e)

/-- `ReportService.process_report_async` (report_service.py:62-84): open a
fresh session over the committed state, re-read the report by id, return
silently when it is gone, otherwise run `_process_report_with_session`; the
outer handler rolls back the (already committed or discarded) session and
re-raises. -/
def process_report_async (cwd : List Str) (llmOut : Except Exn Table)
    (writeFails : Bool) (w : World) (report_id : Nat) (prompt : Str) :
    World × Option Exn :=
  match lookupRep report_id w.reports with
  | none => (w, none)
  | some report => process_report_with_session cwd llmOut writeFails w report_id report prompt

/-- `ReportService.create_report_record` + `_create_report_record`
(report_service.py:40-59, 107-132): build the directory path from the base
directory and the timestamp, insert the row with status PROCESSING, commit,
then write the prompt file under the new directory and return the record. -/
def create_report_record (cwd : List Str) (base_dir : Str) (timestamp : Str)
    (now : Nat) (w : World) (prompt : Str) (prompt_name : Option Str) :
    World × Nat × Report :=
  let directory_path := base_dir ++ '/' :: timestamp
  let report : Report :=
    { created_at := now, status := .processing, directory_path := directory_path,
      prompt_name := prompt_name }
  let rid := freshId w.reports
  let w1 : World := { w with reports := w.reports ++ [(rid, report)] }
  let prompt_path := joinResolve cwd directory_path (get_prompt_filename prompt_name)
  ({ w1 with fs := writeFs w1.fs prompt_path prompt }, rid, report)

/-! ## Prompt generation (`PromptService.generate_first_prompt`,
src/services/prompt_service.py:79-101, and the identical
`PromptGenerator.generate_first_prompt`, src/utils/report_utils.py:65-91) -/

/-- The country placeholder token `${COUNTRY}`. -/
def countryTok : Str := ['$', '{', 'C', 'O', 'U', 'N', 'T', 'R', 'Y', '}']

/-- The regulation placeholder token `${REGULATION}`. -/
def regulationTok : Str := ['$', '{', 'R', 'E', 'G', 'U', 'L', 'A', 'T', 'I', 'O', 'N', '}']

/-- The scanning loop of Python `str.replace`: at each position, if the text
starts with the (non-empty) pattern, emit the replacement and skip the
pattern, else copy one character.  `fuel` bounds the recursion and is
irrelevant from `s.length` up. -/
def repGo (pat rep : Str) : Nat → Str → Str
  | _, [] => []
  | 0, _ :: _ => []
  | n + 1, c :: cs =>
    if startsWithL (c :: cs) pat then rep ++ repGo pat rep n (cs.drop (pat.length - 1))
    else c :: repGo pat rep n cs

/-- Python `s.replace(pat, rep)`: leftmost non-overlapping replacement; the
empty pattern inserts `rep` around every character. -/
def replaceAll (s pat rep : Str) : Str :=
  match pat with
  | [] => rep ++ (s.map (fun c => c :: rep)).flatten
  | _ :: _ => repGo pat rep s.length s

/-- `'\n'.join(l)`. -/
def joinNl (l : List Str) : Str :=
  joinWith '\n' l

/-- `generate_first_prompt` on the loaded template content: join the selected
country and regulation names with newlines (empty string when the list is
empty) and substitute the tokens by `str.replace`, country first. -/
def generate_first_prompt (template_content : Str) (countries regulations : List Str) : Str :=
  let country_text := if countries = [] then [] else joinNl countries
  let regulation_text := if regulations = [] then [] else joinNl regulations
  replaceAll (replaceAll template_content countryTok country_text) regulationTok regulation_text

example : replaceAll "ab${COUNTRY}cd".toList countryTok "X\nY".toList
    = "abX\nYcd".toList := by decide
example : replaceAll "abc".toList [] "-".toList = "-a-b-c-".toList := by decide
example : replaceAll "aaa".toList "aa".toList "b".toList = "ba".toList := by decide
example : generate_first_prompt "C:${COUNTRY};R:${REGULATION}".toList
    ["jp".toList, "us".toList] [] = "C:jp\nus;R:".toList := by decide

/-- Decidable equality for `Except`-valued results, used to settle claims by
evaluation. -/
instance {e a : Type} [DecidableEq e] [DecidableEq a] : DecidableEq (Except e a) :=
  fun x y =>
    match x, y with
    | .ok x1, .ok y1 =>
      if h : x1 = y1 then isTrue (by rw [h]) else isFalse (fun hh => by cases hh; exact h rfl)
    | .error x1, .error y1 =>
      if h : x1 = y1 then isTrue (by rw [h]) else isFalse (fun hh => by cases hh; exact h rfl)
    | .ok _, .error _ => isFalse (fun hh => by cases hh)
    | .error _, .ok _ => isFalse (fun hh => by cases hh)

/-- A report row with abstract creation time 0 and no prompt name. -/
def mkReport (dir : Str) (st : ReportStatus) : Report :=
  { created_at := 0, status := st, directory_path := dir, prompt_name := none }

/-! ## Spec-side containment (for claim C1) -/

/-- Is `base` a leading run of the component list `p`? -/
def leadingComps : List Str → List Str → Bool
  | [], _ => true
  | _ :: _, [] => false
  | b :: bs, c :: cs => b = c && leadingComps bs cs

/-- Following the spec's words (§4.3: "Equality and true subdirectories pass;
anything escaping the base ... fails"): a resolved directory is within the
base iff the base's components are a leading run of the directory's
components.  This is the containment notion the code's string comparison is
measured against. -/
def specWithinBase (dir base : List Str) : Bool :=
  leadingComps base dir

/-- A world holding one COMPLETED report whose stored `directory_path` is the
*sibling* directory `/data/reports_evil` of the base `/data/reports`, with a
result file present in that sibling directory. -/
def siblingWorld : World :=
  { reports := [(1, mkReport "/data/reports_evil".toList .completed)],
    fs := fun k =>
      if k = ["data".toList, "reports_evil".toList, "result.tsv".toList] then
        some "h\r\nsecret\r\n".toList
      else none,
    llmCalls := [] }

/-- A world holding one PROCESSING report under the base, with no files. -/
def processingWorld : World :=
  { reports := [(1, mkReport "/data/reports/20240101_000000".toList .processing)],
    fs := fun _ => none,
    llmCalls := [] }

/-- A world holding one report under the base whose result file exists and is
empty. -/
def emptyFileWorld : World :=
  { reports := [(1, mkReport "/data/reports/20240101_000000".toList .completed)],
    fs := fun k =>
      if k = ["data".toList, "reports".toList, "20240101_000000".toList, "result.tsv".toList]
      then some [] else none,
    llmCalls := [] }

/-- The report row inserted by `create_report_record`. -/
def createdReport (now : Nat) (base_dir timestamp : Str) (pn : Option Str) : Report :=
  { created_at := now, status := .processing,
    directory_path := base_dir ++ '/' :: timestamp, prompt_name := pn }

/-- The empty world. -/
def emptyWorld : World :=
  { reports := [], fs := fun _ => none, llmCalls := [] }

/-- C1: the claim states that every stored `directory_path` resolving outside
the configured base directory makes `getReportContent` raise InvalidFilePath
before any file read.  The code compares rendered path *strings* with
`str.startswith` and no trailing separator, so the sibling directory
`/data/reports_evil` — which is *not* the base `/data/reports` nor a
subdirectory of it — passes the check, and `get_report_content` goes on to
read and serve the file from outside the base. -/
theorem c1_sibling_directory_escapes_check :
    specWithinBase (resolvePath [] "/data/reports_evil".toList)
      (resolvePath [] "/data/reports".toList) = false
    ∧ validate_report_path [] "/data/reports".toList "/data/reports_evil".toList none
      = .ok ["data".toList, "reports_evil".toList, "result.tsv".toList]
    ∧ get_report_content [] "/data/reports".toList siblingWorld 1
      = .ok (["h".toList], [["secret".toList]]) := by
  refine ⟨by decide, by decide, ?_⟩
  decide

/-- C5: when no report with the requested id exists, `get_report_content`
fails with `ResourceNotFound` carrying the id — for *every* base directory,
working directory and filesystem, i.e. before any path-safety check or file
access can influence the outcome. -/
theorem c5_missing_report_not_found (cwd : List Str) (base_dir : Str) (w : World)
    (rid : Nat) (h : lookupRep rid w.reports = none) :
    get_report_content cwd base_dir w rid
      = .error (.resourceNotFound "Report".toList rid) := by
  simp [get_report_content, h]

/-- C5 witness: id 9999 in an empty store. -/
theorem c5_missing_report_not_found_witness :
    lookupRep 9999 (World.reports { reports := [], fs := fun _ => none, llmCalls := [] }) = none
    ∧ get_report_content [] "/data/reports".toList
        { reports := [], fs := fun _ => none, llmCalls := [] } 9999
      = .error (.resourceNotFound "Report".toList 9999) :=
  ⟨rfl, c5_missing_report_not_found [] "/data/reports".toList
    { reports := [], fs := fun _ => none, llmCalls := [] } 9999 rfl⟩

/-- C6: an existing report whose directory passes the path check but whose
result file does not exist yields `([], [])` rather than an exception. -/
theorem c6_missing_file_gives_empty (cwd : List Str) (base_dir : Str) (w : World)
    (rid : Nat) (r : Report) (p : List Str)
    (h1 : lookupRep rid w.reports = some r)
    (h2 : validate_report_path cwd base_dir r.directory_path r.prompt_name = .ok p)
    (h3 : w.fs p = none) :
    get_report_content cwd base_dir w rid = .ok ([], []) := by
  simp [get_report_content, h1, h2, read_tsv_file, h3]

/-- C6 witness: the PROCESSING report with no file on disk. -/
theorem c6_missing_file_gives_empty_witness :
    get_report_content [] "/data/reports".toList processingWorld 1 = .ok ([], []) :=
  c6_missing_file_gives_empty [] "/data/reports".toList processingWorld 1
    (mkReport "/data/reports/20240101_000000".toList .processing)
    ["data".toList, "reports".toList, "20240101_000000".toList, "result.tsv".toList]
    (by decide) (by decide) rfl

/-- C8: when the re-read inside `process_report_async` finds no report, the
call is a silent no-op: no exception, and the world — database rows,
filesystem, and the log of completion-client calls — is returned unchanged. -/
theorem c8_vanished_report_silent_noop (cwd : List Str) (llmOut : Except Exn Table)
    (writeFails : Bool) (w : World) (rid : Nat) (prompt : Str)
    (h : lookupRep rid w.reports = none) :
    process_report_async cwd llmOut writeFails w rid prompt = (w, none) := by
  simp [process_report_async, h]

/-- C8 witness: processing id 2 in a store holding only id 1 changes nothing,
even with a successful completion outcome available. -/
theorem c8_vanished_report_silent_noop_witness :
    lookupRep 2 processingWorld.reports = none
    ∧ process_report_async [] (.ok (["h".toList], [])) false processingWorld 2 "p".toList
      = (processingWorld, none) :=
  ⟨by decide, c8_vanished_report_silent_noop [] (.ok (["h".toList], [])) false
    processingWorld 2 "p".toList (by decide)⟩

/-- C9: an existing result file that parses to zero rows (an empty file)
yields exactly the missing-file answer `([], [])`, so the two cases are
indistinguishable through `get_report_content`. -/
theorem c9_empty_file_like_missing (cwd : List Str) (base_dir : Str) (w : World)
    (rid : Nat) (r : Report) (p : List Str)
    (h1 : lookupRep rid w.reports = some r)
    (h2 : validate_report_path cwd base_dir r.directory_path r.prompt_name = .ok p)
    (h3 : w.fs p = some []) :
    get_report_content cwd base_dir w rid = .ok ([], [])
    ∧ read_tsv_file w.fs p = read_tsv_file (fun _ => none) p := by
  constructor
  · simp [get_report_content, h1, h2, read_tsv_file, h3, parseCsv, csvRun]
  · simp [read_tsv_file, h3, parseCsv, csvRun]

/-- C9 witness: the empty result file. -/
theorem c9_empty_file_like_missing_witness :
    get_report_content [] "/data/reports".toList emptyFileWorld 1 = .ok ([], []) :=
  (c9_empty_file_like_missing [] "/data/reports".toList emptyFileWorld 1
    (mkReport "/data/reports/20240101_000000".toList .completed)
    ["data".toList, "reports".toList, "20240101_000000".toList, "result.tsv".toList]
    (by decide) (by decide) (by decide)).1

/-- C10: substitution is sequential — country token first, then the
regulation token over the whole intermediate string.  With the template
`${COUNTRY}|${REGULATION}`, a selected country name containing the literal
regulation token and a regulation name containing the country token, the
generated prompt has the regulation list substituted *inside* the country
name, while the country token brought in by the regulation name is left
unreplaced. -/
theorem c10_sequential_substitution :
    generate_first_prompt "${COUNTRY}|${REGULATION}".toList
        ["X${REGULATION}Y".toList] ["R${COUNTRY}S".toList]
      = "XR${COUNTRY}SY|R${COUNTRY}S".toList
    ∧ containsSub (generate_first_prompt "${COUNTRY}|${REGULATION}".toList
        ["X${REGULATION}Y".toList] ["R${COUNTRY}S".toList]) countryTok = true
    ∧ containsSub (generate_first_prompt "${COUNTRY}|${REGULATION}".toList
        ["X${REGULATION}Y".toList] ["R${COUNTRY}S".toList]) regulationTok = false := by
  refine ⟨by decide, by decide, by decide⟩

/-! ## Database lemmas for the lifecycle claims -/

/-- Looking up a key bound to no entry gives `none`. -/
theorem lookupRep_eq_none_of_forall {l : List (Nat × Report)} {k : Nat}
    (hall : ∀ kv ∈ l, kv.1 ≠ k) : lookupRep k l = none := by
  induction l with
  | nil => rfl
  | cons kv rest ih =>
    have hk : kv.1 ≠ k := hall kv (by simp)
    simp only [lookupRep, if_neg hk]
    exact ih (fun kv2 h2 => hall kv2 (by simp [h2]))

/-- Every key in the list is at most `maxKey`. -/
theorem key_le_maxKey {l : List (Nat × Report)} {kv : Nat × Report}
    (hmem : kv ∈ l) : kv.1 ≤ maxKey l := by
  induction l with
  | nil => cases hmem
  | cons kv2 rest ih =>
    rcases List.mem_cons.mp hmem with h | h
    · subst h; simp [maxKey, List.foldr]
    · calc kv.1 ≤ maxKey rest := ih h
        _ ≤ maxKey (kv2 :: rest) := by simp [maxKey, List.foldr]

/-- The freshly assigned id is unbound in the store. -/
theorem lookupRep_freshId (l : List (Nat × Report)) :
    lookupRep (freshId l) l = none := by
  refine lookupRep_eq_none_of_forall (fun kv hkv => ?_)
  have := key_le_maxKey hkv
  simp only [freshId]
  omega

/-- Appending a new binding for an unbound key makes it found. -/
theorem lookupRep_append_fresh {l : List (Nat × Report)} {k : Nat} (r : Report)
    (h : lookupRep k l = none) : lookupRep k (l ++ [(k, r)]) = some r := by
  induction l with
  | nil => simp [lookupRep]
  | cons kv rest ih =>
    by_cases hk : kv.1 = k
    · rw [lookupRep, if_pos hk] at h
      cases h
    · rw [lookupRep, if_neg hk] at h
      rw [List.cons_append, lookupRep, if_neg hk]
      exact ih h

/-- `update_status` rewrites exactly the looked-up row's status. -/
theorem lookupRep_update_status (l : List (Nat × Report)) (rid : Nat)
    (st : ReportStatus) :
    lookupRep rid (update_status l rid st)
      = (lookupRep rid l).map (fun r => { r with status := st }) := by
  induction l with
  | nil => rfl
  | cons kv rest ih =>
    simp only [update_status] at ih ⊢
    by_cases hk : kv.1 = rid
    · simp [lookupRep, hk]
    · simp only [List.map_cons, if_neg hk, lookupRep, ih]

/-- `save_report_files` touches only the filesystem and the call log. -/
theorem save_report_files_reports (cwd : List Str) (llmOut : Except Exn Table)
    (writeFails : Bool) (w : World) (dir prompt : Str) (pn : Option Str) :
    (save_report_files cwd llmOut writeFails w dir prompt pn).1.reports = w.reports := by
  rcases llmOut with e | ⟨headers, rows⟩
  · rfl
  · cases writeFails <;> rfl

/-- `create_report_record` appends the PROCESSING row under the fresh id. -/
theorem create_report_record_reports (cwd : List Str) (base_dir timestamp : Str)
    (now : Nat) (w : World) (prompt : Str) (pn : Option Str) :
    (create_report_record cwd base_dir timestamp now w prompt pn).1.reports
      = w.reports ++ [(freshId w.reports, createdReport now base_dir timestamp pn)]
    ∧ (create_report_record cwd base_dir timestamp now w prompt pn).2.1
      = freshId w.reports
    ∧ (create_report_record cwd base_dir timestamp now w prompt pn).2.2
      = createdReport now base_dir timestamp pn := by
  refine ⟨rfl, rfl, rfl⟩

/-! ## Claims C2 and C3 -/

/-- C2: under `createReportRecord` followed by at most one
`processReportAsync`, the report's status starts at PROCESSING and the single
processing step moves it to COMPLETED or to FAILED — the observed status
sequence is a prefix of `[PROCESSING, COMPLETED]` or `[PROCESSING, FAILED]`,
whatever the completion outcome, so no execution leaves a terminal state or
crosses between the two terminal states. -/
theorem c2_status_transitions_once (cwd : List Str) (base_dir timestamp : Str)
    (now : Nat) (w : World) (prompt prompt2 : Str) (prompt_name : Option Str)
    (llmOut : Except Exn Table) (writeFails : Bool) (w1 w2 : World) (rid : Nat)
    (r : Report) (ex : Option Exn)
    (h1 : create_report_record cwd base_dir timestamp now w prompt prompt_name = (w1, rid, r))
    (h2 : process_report_async cwd llmOut writeFails w1 rid prompt2 = (w2, ex)) :
    statusOf w1 rid = some .processing
    ∧ (statusOf w2 rid = some .completed ∨ statusOf w2 rid = some .failed) := by
  have hw1 : w1.reports
      = w.reports ++ [(freshId w.reports, createdReport now base_dir timestamp prompt_name)] := by
    have := congrArg (fun p => p.1.reports) h1
    exact this.symm.trans (create_report_record_reports cwd base_dir timestamp now w
      prompt prompt_name).1
  have hrid : rid = freshId w.reports := by
    have := congrArg (fun p => p.2.1) h1
    exact this.symm.trans (create_report_record_reports cwd base_dir timestamp now w
      prompt prompt_name).2.1
  have hlook : lookupRep rid w1.reports
      = some (createdReport now base_dir timestamp prompt_name) := by
    rw [hw1, hrid]
    exact lookupRep_append_fresh _ (lookupRep_freshId _)
  refine ⟨by simp [statusOf, hlook, createdReport], ?_⟩
  have h2' := h2
  simp only [process_report_async, hlook, process_report_with_session] at h2'
  rcases hres : (save_report_files cwd llmOut writeFails w1
      (createdReport now base_dir timestamp prompt_name).directory_path prompt2
      (createdReport now base_dir timestamp prompt_name).prompt_name).2 with e | u
  · right
    rw [hres] at h2'
    have hw2 : w2.reports = update_status (save_report_files cwd llmOut writeFails w1
        (createdReport now base_dir timestamp prompt_name).directory_path prompt2
        (createdReport now base_dir timestamp prompt_name).prompt_name).1.reports
        rid .failed := by
      have := congrArg (fun p => p.1.reports) h2'
      simpa using this.symm
    rw [statusOf, hw2, save_report_files_reports, lookupRep_update_status, hlook]
    rfl
  · left
    rw [hres] at h2'
    have hw2 : w2.reports = update_status (save_report_files cwd llmOut writeFails w1
        (createdReport now base_dir timestamp prompt_name).directory_path prompt2
        (createdReport now base_dir timestamp prompt_name).prompt_name).1.reports
        rid .completed := by
      have := congrArg (fun p => p.1.reports) h2'
      simpa using this.symm
    rw [statusOf, hw2, save_report_files_reports, lookupRep_update_status, hlook]
    rfl

/-- C2 witness: create in the empty world, then one successful processing. -/
theorem c2_status_transitions_once_witness :
    statusOf (create_report_record [] "/r".toList "t".toList 0 emptyWorld
        "p".toList none).1
      (create_report_record [] "/r".toList "t".toList 0 emptyWorld "p".toList none).2.1
      = some .processing
    ∧ (statusOf (process_report_async [] (.ok (["h".toList], [])) false
          (create_report_record [] "/r".toList "t".toList 0 emptyWorld "p".toList none).1
          (create_report_record [] "/r".toList "t".toList 0 emptyWorld "p".toList none).2.1
          "p".toList).1
        (create_report_record [] "/r".toList "t".toList 0 emptyWorld "p".toList none).2.1
        = some .completed
      ∨ statusOf (process_report_async [] (.ok (["h".toList], [])) false
          (create_report_record [] "/r".toList "t".toList 0 emptyWorld "p".toList none).1
          (create_report_record [] "/r".toList "t".toList 0 emptyWorld "p".toList none).2.1
          "p".toList).1
        (create_report_record [] "/r".toList "t".toList 0 emptyWorld "p".toList none).2.1
        = some .failed) :=
  c2_status_transitions_once [] "/r".toList "t".toList 0 emptyWorld "p".toList
    "p".toList none (.ok (["h".toList], [])) false _ _ _ _ _ rfl rfl

/-- C3: any exception in phase 2 after the report is re-read — the completion
call raising, or the result-file write failing — leaves the report FAILED in
the committed state (the uncommitted COMPLETED write having been rolled
back), and the original exception is re-raised to the caller of
`process_report_async`. -/
theorem c3_phase2_failure_sets_failed_and_reraises (cwd : List Str) (w : World)
    (rid : Nat) (r : Report) (prompt : Str) (e : Exn) (writeFails : Bool)
    (tbl : Table) (h : lookupRep rid w.reports = some r) :
    ((process_report_async cwd (.error e) writeFails w rid prompt).2 = some e
      ∧ statusOf (process_report_async cwd (.error e) writeFails w rid prompt).1 rid
        = some .failed)
    ∧ ((process_report_async cwd (.ok tbl) true w rid prompt).2 = some .osError
      ∧ statusOf (process_report_async cwd (.ok tbl) true w rid prompt).1 rid
        = some .failed) := by
  obtain ⟨headers, rows⟩ := tbl
  refine ⟨⟨?_, ?_⟩, ⟨?_, ?_⟩⟩ <;>
    simp [process_report_async, h, process_report_with_session, save_report_files,
      statusOf, lookupRep_update_status]

/-- C3 witness: for the stored PROCESSING report, a completion failure (with a
`ValueError`) and a result-write failure both commit FAILED and re-raise. -/
theorem c3_phase2_failure_sets_failed_and_reraises_witness :
    ((process_report_async [] (.error (.valueError "empty".toList)) false
        processingWorld 1 "p".toList).2 = some (.valueError "empty".toList)
      ∧ statusOf (process_report_async [] (.error (.valueError "empty".toList)) false
          processingWorld 1 "p".toList).1 1 = some .failed)
    ∧ ((process_report_async [] (.ok (["h".toList], [])) true
        processingWorld 1 "p".toList).2 = some .osError
      ∧ statusOf (process_report_async [] (.ok (["h".toList], [])) true
          processingWorld 1 "p".toList).1 1 = some .failed) :=
  c3_phase2_failure_sets_failed_and_reraises [] processingWorld 1
    (mkReport "/data/reports/20240101_000000".toList .processing) "p".toList
    (.valueError "empty".toList) false (["h".toList], []) (by decide)

/-! ## `str.replace` lemmas for claim C7 -/

/-- Every string starts with the empty pattern. -/
theorem startsWithL_nil (s : Str) : startsWithL s [] = true := by
  cases s <;> rfl

/-- A string always starts with itself, whatever follows. -/
theorem startsWithL_append_self (pat t : Str) : startsWithL (pat ++ t) pat = true := by
  induction pat with
  | nil => rw [List.nil_append]; exact startsWithL_nil t
  | cons p ps ih => simp [startsWithL, ih]

/-- The replacement scan is fuel-irrelevant from the input length up. -/
theorem repGo_fuel_irrelevant (pat rep : Str) :
    ∀ n m s, s.length ≤ n → s.length ≤ m → repGo pat rep n s = repGo pat rep m s := by
  intro n
  induction n with
  | zero =>
    intro m s hn _
    cases s with
    | nil => cases m <;> rfl
    | cons c cs => simp at hn
  | succ n ih =>
    intro m s hn hm
    cases s with
    | nil => cases m <;> rfl
    | cons c cs =>
      cases m with
      | zero => simp at hm
      | succ m =>
        simp only [repGo]
        by_cases hsw : startsWithL (c :: cs) pat
        · simp only [if_pos hsw]
          have hlen : (cs.drop (pat.length - 1)).length ≤ n := by
            simp only [List.length_drop]
            simp only [List.length_cons] at hn
            omega
          have hlen2 : (cs.drop (pat.length - 1)).length ≤ m := by
            simp only [List.length_drop]
            simp only [List.length_cons] at hm
            omega
          rw [ih _ _ hlen hlen2]
        · simp only [if_neg hsw]
          have hlen : cs.length ≤ n := by
            simp only [List.length_cons] at hn; omega
          have hlen2 : cs.length ≤ m := by
            simp only [List.length_cons] at hm; omega
          rw [ih _ _ hlen hlen2]

/-- One non-matching scan step. -/
theorem replaceAll_cons_no_match (p : Char) (ps rep s : Str) (c : Char)
    (hsw : startsWithL (c :: s) (p :: ps) = false) :
    replaceAll (c :: s) (p :: ps) rep = c :: replaceAll s (p :: ps) rep := by
  simp only [replaceAll, List.length_cons, repGo, hsw, Bool.false_eq_true, if_false]

/-- Scanning with a pattern headed by `p` copies any `p`-free run unchanged. -/
theorem replaceAll_head_skip (p : Char) (ps rep : Str) :
    ∀ A s, (∀ c ∈ A, c ≠ p) →
      replaceAll (A ++ s) (p :: ps) rep = A ++ replaceAll s (p :: ps) rep := by
  intro A
  induction A with
  | nil => intro s _; rfl
  | cons c A ih =>
    intro s hA
    have hc : c ≠ p := hA c (by simp)
    have hsw : startsWithL (c :: (A ++ s)) (p :: ps) = false := by
      simp [startsWithL, hc]
    rw [List.cons_append, replaceAll_cons_no_match p ps rep (A ++ s) c hsw,
      ih s (fun c2 h2 => hA c2 (by simp [h2])), List.cons_append]

/-- Scanning at an occurrence of the pattern emits the replacement and
continues after it. -/
theorem replaceAll_at_occurrence (p : Char) (ps rep s : Str) :
    replaceAll ((p :: ps) ++ s) (p :: ps) rep = rep ++ replaceAll s (p :: ps) rep := by
  have hsw : startsWithL (p :: (ps ++ s)) (p :: ps) = true := by
    have := startsWithL_append_self (p :: ps) s
    rwa [List.cons_append] at this
  rw [List.cons_append]
  simp only [replaceAll, List.length_cons, repGo, hsw, if_true]
  have hdrop : (ps ++ s).drop ((p :: ps).length - 1) = s := by
    simp only [List.length_cons, Nat.add_sub_cancel]
    exact List.drop_left ps s
  simp only [List.length_cons, Nat.add_sub_cancel] at hdrop ⊢
  rw [hdrop, repGo_fuel_irrelevant (p :: ps) rep _ s.length s (by simp) le_rfl]

/-- A pattern that does not occur anywhere leaves the string unchanged. -/
theorem replaceAll_of_no_occurrence (p : Char) (ps rep : Str) :
    ∀ s, containsSub s (p :: ps) = false → replaceAll s (p :: ps) rep = s := by
  intro s
  induction s with
  | nil => intro _; rfl
  | cons c cs ih =>
    intro hno
    simp only [containsSub, Bool.or_eq_false_iff] at hno
    rw [replaceAll_cons_no_match p ps rep cs c hno.1, ih hno.2]

/-- Newline-joining `'$'`-free strings yields a `'$'`-free string. -/
theorem joinNl_no_dollar : ∀ (l : List Str), (∀ x ∈ l, ∀ c ∈ x, c ≠ '$') →
    ∀ c ∈ joinNl l, c ≠ '$' := by
  intro l
  induction l with
  | nil => intro _ c hc; cases hc
  | cons s rest ih =>
    intro h c hc
    cases rest with
    | nil => exact h s (by simp) c hc
    | cons t r2 =>
      simp only [joinNl, joinWith] at hc
      rcases List.mem_append.mp hc with hc | hc
      · exact h s (by simp) c hc
      · rcases List.mem_cons.mp hc with hc | hc
        · subst hc; decide
        · refine ih (fun x hx => h x (by simp [hx])) c ?_
          simpa [joinNl] using hc

/-- C7: prompt generation is literal sequential replacement: for a template
`A ++ ${COUNTRY} ++ B ++ ${REGULATION} ++ C` whose fixed parts contain no
`'$'` (so no stray token or token fragment), and `'$'`-free country names,
the generated prompt is the template with the country token replaced by the
newline-join of the country names and the regulation token replaced by the
newline-join of the regulation names (each the empty string for an empty
list, since the join of no pieces is empty), in the caller's order with no
sorting and no de-duplication — the joins reproduce the lists verbatim. -/
theorem c7_placeholder_substitution (A B C : Str) (cs rs : List Str)
    (hA : ∀ c ∈ A, c ≠ '$') (hB : ∀ c ∈ B, c ≠ '$')
    (hcs : ∀ x ∈ cs, ∀ c ∈ x, c ≠ '$')
    (hBC : containsSub (B ++ regulationTok ++ C) countryTok = false)
    (hC : containsSub C regulationTok = false) :
    generate_first_prompt (A ++ countryTok ++ B ++ regulationTok ++ C) cs rs
      = A ++ joinNl cs ++ B ++ joinNl rs ++ C := by
  have hjoin : ∀ (l : List Str), (if l = [] then ([] : Str) else joinNl l) = joinNl l := by
    intro l
    cases l with
    | nil => rfl
    | cons a t => rw [if_neg (by simp)]
  have hctok : countryTok = '$' :: ['{', 'C', 'O', 'U', 'N', 'T', 'R', 'Y', '}'] := rfl
  have hrtok : regulationTok
      = '$' :: ['{', 'R', 'E', 'G', 'U', 'L', 'A', 'T', 'I', 'O', 'N', '}'] := rfl
  have hcsd : ∀ c ∈ joinNl cs, c ≠ '$' := joinNl_no_dollar cs hcs
  have hBC' := hBC
  rw [hctok] at hBC'
  simp only [List.append_assoc] at hBC'
  have hC' := hC
  rw [hrtok] at hC'
  simp only [generate_first_prompt, hjoin, List.append_assoc]
  have e1 : replaceAll (A ++ (countryTok ++ (B ++ (regulationTok ++ C)))) countryTok
      (joinNl cs) = A ++ (joinNl cs ++ (B ++ (regulationTok ++ C))) := by
    rw [hctok, replaceAll_head_skip '$' _ (joinNl cs) A _ hA, replaceAll_at_occurrence,
      replaceAll_of_no_occurrence '$' _ (joinNl cs) _ hBC']
  rw [e1]
  have hshape : A ++ (joinNl cs ++ (B ++ (regulationTok ++ C)))
      = (A ++ (joinNl cs ++ B)) ++ (regulationTok ++ C) := by
    simp [List.append_assoc]
  rw [hshape]
  have hda : ∀ c ∈ A ++ (joinNl cs ++ B), c ≠ '$' := by
    intro c hc
    rcases List.mem_append.mp hc with hc | hc
    · exact hA c hc
    · rcases List.mem_append.mp hc with hc | hc
      · exact hcsd c hc
      · exact hB c hc
  rw [hrtok, replaceAll_head_skip '$' _ (joinNl rs) (A ++ (joinNl cs ++ B)) _ hda,
    replaceAll_at_occurrence, replaceAll_of_no_occurrence '$' _ (joinNl rs) _ hC']
  simp [List.append_assoc]

/-- C7 witness: a concrete template with duplicated, order-sensitive country
selections; the joins keep the caller's order and the duplicate. -/
theorem c7_placeholder_substitution_witness :
    generate_first_prompt ("Countries:\n".toList ++ countryTok ++ "\nRegulations:\n".toList
        ++ regulationTok ++ "\nEnd".toList)
      ["Japan".toList, "US".toList, "Japan".toList] ["GDPR".toList, "REACH".toList]
      = "Countries:\n".toList ++ "Japan\nUS\nJapan".toList ++ "\nRegulations:\n".toList
        ++ "GDPR\nREACH".toList ++ "\nEnd".toList := by
  have h := c7_placeholder_substitution "Countries:\n".toList "\nRegulations:\n".toList
    "\nEnd".toList ["Japan".toList, "US".toList, "Japan".toList]
    ["GDPR".toList, "REACH".toList]
    (by decide) (by decide) (by decide) (by decide) (by decide)
  rw [h]
  decide

/-! ## Round-trip of the TSV writer and reader (for claim C4) -/

/-- In a quoted field, any character other than the quote is appended. -/
theorem csvRun_inq_char (c : Char) (hc : c ≠ '"') (fields : List Str) (g cs : Str) :
    csvRun .inq fields g (c :: cs) = csvRun .inq fields (g ++ [c]) cs := by
  conv_lhs => rw [csvRun.eq_def]
  split
  · rename_i heq; cases heq
  · rename_i heq
    injection heq with h1 h2
    subst h1 h2
    rfl
  · rename_i heq
    injection heq with h1 h2
    subst h1 h2
    rfl
  · rename_i heq
    injection heq with h1 h2
    subst h1 h2
    rfl
  · rename_i heq
    injection heq with h1 h2
    subst h1 h2
    rfl
  · rename_i heq
    injection heq with h1 h2
    subst h1 h2
    exact absurd rfl hc
  · rename_i heq
    injection heq with h1 h2
    subst h1 h2
    rfl

/-- At field start, a non-special character opens an unquoted field. -/
theorem csvRun_sf_char (c : Char) (hc : isSpecial c = false) (fields : List Str)
    (g cs : Str) :
    csvRun .sf fields g (c :: cs) = csvRun .inf fields (g ++ [c]) cs := by
  conv_lhs => rw [csvRun.eq_def]
  split
  · rename_i heq; cases heq
  · rename_i heq
    injection heq with h1 h2
    subst h1 h2
    exact absurd hc (by decide)
  · rename_i heq
    injection heq with h1 h2
    subst h1 h2
    exact absurd hc (by decide)
  · rename_i heq
    injection heq with h1 h2
    subst h1 h2
    exact absurd hc (by decide)
  · rename_i heq
    injection heq with h1 h2
    subst h1 h2
    exact absurd hc (by decide)
  · rename_i heq
    injection heq with h1 h2
    subst h1 h2
    exact absurd hc (by decide)
  · rename_i heq
    injection heq with h1 h2
    subst h1 h2
    rfl

/-- Inside an unquoted field, a non-special character is appended. -/
theorem csvRun_inf_char (c : Char) (hc : isSpecial c = false) (fields : List Str)
    (g cs : Str) :
    csvRun .inf fields g (c :: cs) = csvRun .inf fields (g ++ [c]) cs := by
  conv_lhs => rw [csvRun.eq_def]
  split
  · rename_i heq; cases heq
  · rename_i heq
    injection heq with h1 h2
    subst h1 h2
    exact absurd hc (by decide)
  · rename_i heq
    injection heq with h1 h2
    subst h1 h2
    exact absurd hc (by decide)
  · rename_i heq
    injection heq with h1 h2
    subst h1 h2
    exact absurd hc (by decide)
  · rename_i heq
    injection heq with h1 h2
    subst h1 h2
    exact absurd hc (by decide)
  · rename_i heq
    injection heq with h1 h2
    subst h1 h2
    exact absurd hc (by decide)
  · rename_i heq
    injection heq with h1 h2
    subst h1 h2
    rfl

/-- At record start, a non-special character falls through into an unquoted
field. -/
theorem csvRun_sr_char (c : Char) (hc : isSpecial c = false) (fields : List Str)
    (g cs : Str) :
    csvRun .sr fields g (c :: cs) = csvRun .inf fields (g ++ [c]) cs := by
  conv_lhs => rw [csvRun.eq_def]
  split
  · rename_i heq; cases heq
  · rename_i heq
    injection heq with h1 h2
    subst h1 h2
    exact absurd hc (by decide)
  · rename_i heq
    injection heq with h1 h2
    subst h1 h2
    exact absurd hc (by decide)
  · rename_i heq
    injection heq with h1 h2
    subst h1 h2
    exact absurd hc (by decide)
  · rename_i heq
    injection heq with h1 h2
    subst h1 h2
    exact absurd hc (by decide)
  · rename_i heq
    injection heq with h1 h2
    subst h1 h2
    exact absurd hc (by decide)
  · rename_i heq
    injection heq with h1 h2
    subst h1 h2
    rfl

/-- Consuming the escaped body of a quoted field up to its closing quote
accumulates exactly the original field. -/
theorem csvRun_inq_escQuote (f : Str) : ∀ (fields : List Str) (g cs : Str),
    csvRun .inq fields g (escQuote f ++ '"' :: cs) = csvRun .qq fields (g ++ f) cs := by
  induction f with
  | nil =>
    intro fields g cs
    simp only [escQuote, List.nil_append, List.append_nil]
    rfl
  | cons c f ih =>
    intro fields g cs
    by_cases hc : c = '"'
    · subst hc
      rw [show escQuote ('"' :: f) = '"' :: '"' :: escQuote f from by simp [escQuote]]
      simp only [List.cons_append]
      have s1 : csvRun .inq fields g ('"' :: ('"' :: (escQuote f ++ '"' :: cs)))
          = csvRun .qq fields g ('"' :: (escQuote f ++ '"' :: cs)) := rfl
      have s2 : csvRun .qq fields g ('"' :: (escQuote f ++ '"' :: cs))
          = csvRun .inq fields (g ++ ['"']) (escQuote f ++ '"' :: cs) := rfl
      rw [s1, s2, ih (fields) (g ++ ['"']) cs, List.append_assoc]
      rfl
    · simp only [escQuote, if_neg hc, List.cons_append]
      rw [csvRun_inq_char c hc, ih fields (g ++ [c]) cs, List.append_assoc]
      rfl

/-- A run of non-special characters inside an unquoted field is appended
verbatim. -/
theorem csvRun_inf_run (f : Str) (hf : ∀ c ∈ f, isSpecial c = false) :
    ∀ (fields : List Str) (g cs : Str),
      csvRun .inf fields g (f ++ cs) = csvRun .inf fields (g ++ f) cs := by
  induction f with
  | nil => intro fields g cs; simp
  | cons c f ih =>
    intro fields g cs
    rw [List.cons_append, csvRun_inf_char c (hf c (by simp)),
      ih (fun c2 h2 => hf c2 (by simp [h2])) fields (g ++ [c]) cs, List.append_assoc]
    rfl

/-- Reading one written field from field-start, followed by a tab, saves that
field and returns to field-start. -/
theorem csvRun_writeField_tab (f : Str) (fields : List Str) (cs : Str) :
    csvRun .sf fields [] (writeField f ++ '\t' :: cs)
      = csvRun .sf (fields ++ [f]) [] cs := by
  by_cases hq : needQuote f
  · simp only [writeField, if_pos hq, List.cons_append, List.append_assoc,
      List.nil_append]
    have s1 : csvRun .sf fields [] ('"' :: (escQuote f ++ ('"' :: ('\t' :: cs))))
        = csvRun .inq fields [] (escQuote f ++ ('"' :: ('\t' :: cs))) := rfl
    rw [s1, csvRun_inq_escQuote f fields [] ('\t' :: cs), List.nil_append]
    rfl
  · simp only [writeField, if_neg hq]
    cases f with
    | nil => rfl
    | cons c f =>
      have hall : ∀ c2 ∈ c :: f, isSpecial c2 = false := by
        intro c2 h2
        by_contra hbad
        exact hq (List.any_eq_true.mpr ⟨c2, h2, by simpa using hbad⟩)
      rw [List.cons_append, csvRun_sf_char c (hall c (by simp)),
        csvRun_inf_run f (fun c2 h2 => hall c2 (by simp [h2])) fields ([] ++ [c]) ('\t' :: cs)]
      rfl

/-- Reading one written field from field-start, followed by CRLF, saves the
field, emits the record, and restarts at record-start. -/
theorem csvRun_writeField_crlf (f : Str) (fields : List Str) (cs : Str) :
    csvRun .sf fields [] (writeField f ++ '\r' :: '\n' :: cs)
      = (fields ++ [f]) :: csvRun .sr [] [] cs := by
  by_cases hq : needQuote f
  · simp only [writeField, if_pos hq, List.cons_append, List.append_assoc,
      List.nil_append]
    have s1 : csvRun .sf fields [] ('"' :: (escQuote f ++ ('"' :: ('\r' :: '\n' :: cs))))
        = csvRun .inq fields [] (escQuote f ++ ('"' :: ('\r' :: '\n' :: cs))) := rfl
    rw [s1, csvRun_inq_escQuote f fields [] ('\r' :: '\n' :: cs), List.nil_append]
    rfl
  · simp only [writeField, if_neg hq]
    cases f with
    | nil => rfl
    | cons c f =>
      have hall : ∀ c2 ∈ c :: f, isSpecial c2 = false := by
        intro c2 h2
        by_contra hbad
        exact hq (List.any_eq_true.mpr ⟨c2, h2, by simpa using hbad⟩)
      rw [List.cons_append, csvRun_sf_char c (hall c (by simp)),
        csvRun_inf_run f (fun c2 h2 => hall c2 (by simp [h2])) fields ([] ++ [c])
          ('\r' :: '\n' :: cs)]
      rfl

/-- Reading a whole written record body (tab-joined fields) from field-start,
terminated by CRLF, emits exactly those fields as one record. -/
theorem csvRun_writeRowBody (r : List Str) (hr : r ≠ []) :
    ∀ (fields : List Str) (cs : Str),
      csvRun .sf fields [] (writeRowBody r ++ '\r' :: '\n' :: cs)
        = (fields ++ r) :: csvRun .sr [] [] cs := by
  induction r with
  | nil => exact absurd rfl hr
  | cons f rest ih =>
    intro fields cs
    cases rest with
    | nil => exact csvRun_writeField_crlf f fields cs
    | cons g r2 =>
      have : writeRowBody (f :: g :: r2) ++ '\r' :: '\n' :: cs
          = writeField f ++ '\t' :: (writeRowBody (g :: r2) ++ '\r' :: '\n' :: cs) := by
        simp [writeRowBody, List.append_assoc]
      rw [this, csvRun_writeField_tab f fields, ih (by simp) (fields ++ [f]) cs,
        List.append_assoc]
      rfl

/-- At record start, any character but CR/LF behaves as at field start (the C
`switch` fallthrough from `START_RECORD` into `START_FIELD`). -/
theorem csvRun_sr_fallthrough (c : Char) (hc1 : c ≠ '\r') (hc2 : c ≠ '\n')
    (fields : List Str) (g cs : Str) :
    csvRun .sr fields g (c :: cs) = csvRun .sf fields g (c :: cs) := by
  by_cases hq : c = '"'
  · subst hq; rfl
  · by_cases ht : c = '\t'
    · subst ht; rfl
    · have hns : isSpecial c = false := by
        simp [isSpecial, hq, ht, hc1, hc2]
      rw [csvRun_sr_char c hns fields g cs, csvRun_sf_char c hns fields g cs]

/-- A written record body starts with a character that is not CR or LF. -/
theorem writeRowBody_head (f : Str) (rest : List Str) (h2 : f :: rest ≠ [[]]) :
    ∃ c Y, writeRowBody (f :: rest) = c :: Y ∧ c ≠ '\r' ∧ c ≠ '\n' := by
  cases f with
  | nil =>
    cases rest with
    | nil => exact absurd rfl h2
    | cons g r2 =>
      refine ⟨'\t', writeRowBody (g :: r2), ?_, by decide, by decide⟩
      simp [writeRowBody, writeField, needQuote]
  | cons c f =>
    by_cases hq : needQuote (c :: f)
    · cases rest with
      | nil =>
        refine ⟨'"', escQuote (c :: f) ++ ['"'], ?_, by decide, by decide⟩
        simp [writeRowBody, writeField, hq]
      | cons g r2 =>
        refine ⟨'"', (escQuote (c :: f) ++ ['"']) ++ '\t' :: writeRowBody (g :: r2), ?_, by decide, by decide⟩
        simp [writeRowBody, writeField, hq, List.cons_append]
    · have hns : isSpecial c = false := by
        by_contra hbad
        exact hq (List.any_eq_true.mpr ⟨c, by simp, by simpa using hbad⟩)
      have hc1 : c ≠ '\r' := by
        intro h; subst h; exact absurd hns (by decide)
      have hc2 : c ≠ '\n' := by
        intro h; subst h; exact absurd hns (by decide)
      cases rest with
      | nil =>
        refine ⟨c, f, ?_, hc1, hc2⟩
        simp [writeRowBody, writeField, hq]
      | cons g r2 =>
        refine ⟨c, f ++ '\t' :: writeRowBody (g :: r2), ?_, hc1, hc2⟩
        simp [writeRowBody, writeField, hq, List.cons_append]

/-- Reading one written record (`csv.writer.writerow` output) from record
start emits exactly that record and restarts at record start — including the
empty record (blank line) and the lone-empty-field record (`""`). -/
theorem csvRun_writeRow (r : List Str) (cs : Str) :
    csvRun .sr [] [] (writeRow r ++ cs) = r :: csvRun .sr [] [] cs := by
  by_cases hsp : r = [[]]
  · subst hsp; rfl
  · cases r with
    | nil => rfl
    | cons f rest =>
      obtain ⟨c, Y, hbody, hc1, hc2⟩ := writeRowBody_head f rest hsp
      rw [writeRow, if_neg hsp]
      have hsh : (writeRowBody (f :: rest) ++ ['\r', '\n']) ++ cs
          = writeRowBody (f :: rest) ++ ('\r' :: '\n' :: cs) := by
        simp [List.append_assoc]
      rw [hsh, hbody, List.cons_append, csvRun_sr_fallthrough c hc1 hc2,
        ← List.cons_append, ← hbody, csvRun_writeRowBody (f :: rest) (by simp)]
      simp

/-- Reading the concatenation of written records yields those records. -/
theorem csvRun_writeRows (rows : List (List Str)) :
    csvRun .sr [] [] ((rows.map writeRow).flatten) = rows := by
  induction rows with
  | nil => rfl
  | cons r rest ih =>
    simp only [List.map_cons, List.flatten_cons]
    rw [csvRun_writeRow, ih]

/-- Full round trip: parsing a written table returns the headers row followed
by the data rows, for *every* headers list and rows list. -/
theorem parseCsv_serializeTable (headers : List Str) (rows : List (List Str)) :
    parseCsv (serializeTable headers rows) = headers :: rows := by
  rw [parseCsv, serializeTable, csvRun_writeRow, csvRun_writeRows]

/-- A successful path validation returns exactly the writer's resolved
result-file location: reader and writer agree on the artifact path because
both derive it from `directory_path` and `_get_result_filename` the same
way. -/
theorem validate_ok_path {cwd : List Str} {base_dir dir : Str} {pn : Option Str}
    {p : List Str} (h : validate_report_path cwd base_dir dir pn = .ok p) :
    joinResolve cwd dir (get_result_filename pn) = p := by
  simp only [validate_report_path] at h
  rw [joinResolve]
  split at h
  all_goals
    first
      | (rename_i habs
         rw [if_pos habs]
         split at h
         all_goals
           (cases h <;> rfl))
      | (rename_i habs
         rw [if_neg habs]
         split at h
         all_goals
           (cases h <;> rfl))

/-- C4: when phase 2 succeeds with table `(headers, rows)` for a stored
report whose path validation passes, no exception is raised, the status
becomes COMPLETED, the result file is written at exactly the path the reader
later validates and reads (both sides compute the file name with
`_get_result_filename`), and `get_report_content` returns exactly
`(headers, rows)` — the write-then-read round trip through the tab-separated
file is the identity. -/
theorem c4_success_roundtrip (cwd : List Str) (base_dir : Str) (w : World)
    (rid : Nat) (r : Report) (prompt : Str) (headers : List Str)
    (rows : List (List Str)) (p : List Str)
    (h1 : lookupRep rid w.reports = some r)
    (h2 : validate_report_path cwd base_dir r.directory_path r.prompt_name = .ok p) :
    (process_report_async cwd (.ok (headers, rows)) false w rid prompt).2 = none
    ∧ statusOf (process_report_async cwd (.ok (headers, rows)) false w rid prompt).1 rid
      = some .completed
    ∧ joinResolve cwd r.directory_path (get_result_filename r.prompt_name) = p
    ∧ get_report_content cwd base_dir
        (process_report_async cwd (.ok (headers, rows)) false w rid prompt).1 rid
      = .ok (headers, rows) := by
  have hp : joinResolve cwd r.directory_path (get_result_filename r.prompt_name) = p :=
    validate_ok_path h2
  subst hp
  have hex : (process_report_async cwd (.ok (headers, rows)) false w rid prompt).2
      = none := by
    simp [process_report_async, h1, process_report_with_session, save_report_files]
  have hrep : (process_report_async cwd (.ok (headers, rows)) false w rid prompt).1.reports
      = update_status w.reports rid .completed := by
    simp [process_report_async, h1, process_report_with_session, save_report_files]
  have hfs : (process_report_async cwd (.ok (headers, rows)) false w rid prompt).1.fs
      = writeFs
          (writeFs w.fs (joinResolve cwd r.directory_path
            (get_prompt_filename r.prompt_name)) prompt)
          (joinResolve cwd r.directory_path (get_result_filename r.prompt_name))
          (serializeTable headers rows) := by
    simp [process_report_async, h1, process_report_with_session, save_report_files]
  refine ⟨hex, ?_, rfl, ?_⟩
  · rw [statusOf, hrep, lookupRep_update_status, h1]
    rfl
  · have hlook2 : lookupRep rid
        (process_report_async cwd (.ok (headers, rows)) false w rid prompt).1.reports
        = some { r with status := ReportStatus.completed } := by
      rw [hrep, lookupRep_update_status, h1]
      rfl
    simp only [get_report_content, hlook2, h2, read_tsv_file, hfs, writeFs]
    simp [parseCsv_serializeTable]

/-- C4 witness: the stored PROCESSING report processed successfully with
`(["h1","h2"], [["a","b"]])` and read back. -/
theorem c4_success_roundtrip_witness :
    (process_report_async [] (.ok (["h1".toList, "h2".toList], [["a".toList, "b".toList]]))
        false processingWorld 1 "p".toList).2 = none
    ∧ statusOf (process_report_async []
        (.ok (["h1".toList, "h2".toList], [["a".toList, "b".toList]]))
        false processingWorld 1 "p".toList).1 1 = some .completed
    ∧ joinResolve [] "/data/reports/20240101_000000".toList (get_result_filename none)
      = ["data".toList, "reports".toList, "20240101_000000".toList, "result.tsv".toList]
    ∧ get_report_content [] "/data/reports".toList
        (process_report_async []
          (.ok (["h1".toList, "h2".toList], [["a".toList, "b".toList]]))
          false processingWorld 1 "p".toList).1 1
      = .ok (["h1".toList, "h2".toList], [["a".toList, "b".toList]]) :=
  c4_success_roundtrip [] "/data/reports".toList processingWorld 1
    (mkReport "/data/reports/20240101_000000".toList .processing) "p".toList
    ["h1".toList, "h2".toList] [["a".toList, "b".toList]]
    ["data".toList, "reports".toList, "20240101_000000".toList, "result.tsv".toList]
    (by decide) (by decide)
